import Mathlib

/-!
Shallow embedding of the rspamd-iscan orchestration engine (Go) and proofs
about the spec claims.  Each Go function referenced by a claim is translated
into an executable Lean definition; machine details that the claims do not
depend on (logging, contexts, wall-clock time) are elided, while control flow,
error propagation and the produced values are kept faithful to the source.

Modelling conventions:
* Go error values become the inductive `GoError`; `errors.Unwrap` / `errors.Is`
  are translated directly.
* `float32` scores appear in the claims only through comparisons with zero and
  a threshold and through `fmt.Sprint` of integral values, so scores are
  modelled as `Int` (for integral values Go prints them the same way).
* `time.Time` values are opaque instants, modelled as `Nat`.
* IMAP / HTTP / filesystem effects are either recorded in an explicit trace or
  supplied as oracles (the outcome each call would have).
* A Go iterator (`iter.Seq2`) or a repeatedly-called thunk is supplied as a
  finite script of the values it yields.
-/

namespace RspamdIscan

/-! ### Go error values

Go errors are comparable interface values that may wrap a cause
(`errors.Unwrap`).  We model the error values that the repository builds:
plain leaf errors (`errors.New`), wrapping errors (`fmt.Errorf` with `%w`,
the test helper `retryableError`), `net.OpError` (which has an `Unwrap`
method returning its cause and a `Temporary` flag), and the distinguished
sentinel errors from the standard library that `neterr.IsRetryableError`
compares against.  Distinct `id`s stand for distinct Go error values. -/

/-- The sentinel errors named in `neterr.IsRetryableError`. -/
inductive NetSentinel where
  | econnrefused
  | econnreset
  | econnaborted
  | epipe
  | etimedout
  | enetunreach
  | ehostunreach
  | errUnexpectedEOF
  | errClosed
  deriving DecidableEq, Repr

/-- A Go error value. -/
inductive GoError where
  /-- a leaf error such as `errors.New(...)`; no `Unwrap` -/
  | leaf (id : Nat)
  /-- one of the standard-library sentinel errors; no `Unwrap` -/
  | sentinel (s : NetSentinel)
  /-- a wrapping error (e.g. `fmt.Errorf("...: %w", cause)`); `Unwrap` returns the cause -/
  | wrap (id : Nat) (cause : GoError)
  /-- a `net.OpError` with its `Temporary()` flag; `Unwrap` returns the cause -/
  | opError (id : Nat) (temporary : Bool) (cause : GoError)
  deriving DecidableEq, Repr

namespace GoError

/-- `errors.Unwrap`: the cause of a wrapping error, `none` for leaves. -/
def unwrap : GoError → Option GoError
  | .leaf _ => none
  | .sentinel _ => none
  | .wrap _ c => some c
  | .opError _ _ c => some c

/-- `errors.Is(err, target)` for a non-nil target: walk the unwrap chain of
`err` comparing each element to `target`. -/
def isErr (e t : GoError) : Bool :=
  e = t ||
    match e with
    | .leaf _ => false
    | .sentinel _ => false
    | .wrap _ c => isErr c t
    | .opError _ _ c => isErr c t

/-- `errors.Is(err, target)` where the target may be nil (`none`).
Go's `errors.Is` returns `err == target` when the target is nil, which is
false for every non-nil `err`. -/
def isErrOpt (e : GoError) : Option GoError → Bool
  | none => false
  | some t => isErr e t

/-- The unwrap chain of an error, starting at the error itself. -/
def chain : GoError → List GoError
  | .leaf i => [.leaf i]
  | .sentinel s => [.sentinel s]
  | .wrap i c => .wrap i c :: chain c
  | .opError i b c => .opError i b c :: chain c

/-- The root cause of an error: the leaf at the end of the unwrap chain. -/
def rootCause : GoError → GoError
  | .leaf i => .leaf i
  | .sentinel s => .sentinel s
  | .wrap _ c => rootCause c
  | .opError _ _ c => rootCause c

/-- Whether the error (e.g. a `net.OpError`) reports `Temporary() == true`
at the top level. -/
def temporaryFlagged : GoError → Bool
  | .opError _ b _ => b
  | _ => false

end GoError

/-! ### 4.A  Retryable-error classifier (`neterr.IsRetryableError`) -/

open GoError in
/-- `neterr.IsRetryableError`: a switch over `errors.Is` against nine
standard-library sentinel errors. -/
def IsRetryableError (e : GoError) : Bool :=
  isErr e (.sentinel .econnrefused) ||
  isErr e (.sentinel .econnreset) ||
  isErr e (.sentinel .econnaborted) ||
  isErr e (.sentinel .epipe) ||
  isErr e (.sentinel .etimedout) ||
  isErr e (.sentinel .enetunreach) ||
  isErr e (.sentinel .ehostunreach) ||
  isErr e (.sentinel .errUnexpectedEOF) ||
  isErr e (.sentinel .errClosed)

/-- The nine sentinels `IsRetryableError` recognises. -/
def retryableSentinels : List GoError :=
  [.sentinel .econnrefused, .sentinel .econnreset, .sentinel .econnaborted,
   .sentinel .epipe, .sentinel .etimedout, .sentinel .enetunreach,
   .sentinel .ehostunreach, .sentinel .errUnexpectedEOF, .sentinel .errClosed]

/-! ### 4.B  Retry runner (`retry.Runner.Run`)

The thunk's successive results are supplied as a finite script; `none` is a
successful call, `some e` a failing one.  The runner's mutable state
(`lastError`, `failures`) and the call counter are passed explicitly.  If the
script is exhausted while the loop would continue, the outcome is `running`
(the Go loop would sleep and invoke the thunk again). -/

/-- How a finite prefix of `Runner.Run`'s execution ends. -/
inductive RunOutcome where
  /-- the thunk succeeded; `calls` invocations were made -/
  | success (calls : Nat)
  /-- `IsRetryable` classified the error as fatal -/
  | nonRetryable (calls : Nat) (e : GoError)
  /-- the `max. number of retries exceeded` return -/
  | maxRetriesExceeded (calls : Nat) (e : GoError)
  /-- script exhausted, the loop would sleep and call the thunk again -/
  | running (calls : Nat) (lastError : Option GoError) (failures : Nat)
  deriving DecidableEq, Repr

/-- The loop of `retry.Runner.Run`, with the runner state passed explicitly:
`lastError` mirrors `r.lastError`, `failures` mirrors `r.failures`, `calls`
counts invocations of `r.Fn`. -/
def runnerRun (isRetryable : GoError → Bool) (maxRetriesSameError : Nat) :
    List (Option GoError) → Option GoError → Nat → Nat → RunOutcome
  | [], lastError, failures, calls => .running calls lastError failures
  | none :: _, _, _, calls => .success (calls + 1)
  | some err :: rest, lastError, failures, calls =>
    let failures := failures + 1
    if ¬ isRetryable err then
      .nonRetryable (calls + 1) err
    else if GoError.isErrOpt err lastError then
      if maxRetriesSameError ≤ failures then
        .maxRetriesExceeded (calls + 1) err
      else
        runnerRun isRetryable maxRetriesSameError rest (GoError.unwrap err) failures (calls + 1)
    else
      runnerRun isRetryable maxRetriesSameError rest (GoError.unwrap err) 1 (calls + 1)

/-- `retry.Runner.Run` started on a fresh runner (`lastError == nil`,
`failures == 0`). -/
def RunnerRun (isRetryable : GoError → Bool) (maxRetriesSameError : Nat)
    (script : List (Option GoError)) : RunOutcome :=
  runnerRun isRetryable maxRetriesSameError script none 0 0

/-! ### 4.C  Header building and insertion (`internal/mail`) -/

/-- A character admissible in a header name or body: printable US-ASCII
33..126 without `:`. -/
def isValidHdrChar (c : Char) : Bool :=
  33 ≤ c.toNat && c.toNat ≤ 126 && c ≠ ':'

/-- `mail.strEmailHdrCharsOnly`: remove all non-printable ASCII chars and
colons. -/
def strEmailHdrCharsOnly (s : String) : String :=
  String.mk (s.toList.filter isValidHdrChar)

/-- `mail.AsHeader`: build the header line `name ": " body CRLF`, validating
character set and overall length. -/
def AsHeader (name w : String) : Except String String :=
  let nClean := strEmailHdrCharsOnly name
  if nClean.length ≠ name.length then
    .error "header name contains an invalid character"
  else
    let bClean := strEmailHdrCharsOnly w
    if bClean.length ≠ w.length then
      .error "header body contains an invalid character"
    else
      let hdr := nClean ++ ": " ++ bClean ++ "\r\n"
      if 1000 < hdr.length then .error "header is too long" else .ok hdr

/-- `mail.AsHeaders`: concatenate the header lines of the map entries, in the
order Go's map iteration yields them.  Go map iteration order is unspecified
and randomized, so the order is an input of the model: the function may be
invoked with any permutation of the map's entries. -/
def AsHeaders : List (String × String) → Except String String
  | [] => .ok ""
  | (k, v) :: rest =>
    match AsHeader k v with
    | .error e => .error ("converting header " ++ k ++ ": " ++ v ++ " failed: " ++ e)
    | .ok hdr =>
      match AsHeaders rest with
      | .error e => .error e
      | .ok s => .ok (hdr ++ s)

/-- `bytes.Index(buf, []byte("\r\n\r\n"))`: the first index where the
four-byte CR LF CR LF sentinel starts, if any. -/
def indexCrlfCrlf : List Nat → Option Nat
  | 13 :: 10 :: 13 :: 10 :: _ => some 0
  | [] => none
  | _ :: rest => (indexCrlfCrlf rest).map (· + 1)

/-- The loop of `mail.addHeaders`.  Each element of `chunks` is the byte slice
one `emailBr.Read(buf)` call returns (at most 4096 bytes; an `io.Reader` may
return fewer bytes than requested, and `bufio.Reader.Read` performs at most
one underlying read).  `out` accumulates the bytes written so far.  When the
chunk list is exhausted the next read returns `io.EOF`. -/
def addHeadersLoop (hdrs : List Nat) : List (List Nat) → List Nat → Except String (List Nat)
  | [], _ => .error "header end not found"
  | chunk :: rest, out =>
    match indexCrlfCrlf chunk with
    | some idx =>
      .ok (out ++ chunk.take idx ++ [13, 10] ++ hdrs ++ chunk.drop (idx + 2) ++ rest.flatten)
    | none => addHeadersLoop hdrs rest (out ++ chunk)

/-- `mail.addHeaders`: read the message chunk by chunk, scan each chunk for
the CR LF CR LF sentinel, and splice the new header block in at the header
end. -/
def addHeaders (chunks : List (List Nat)) (hdrs : List Nat) : Except String (List Nat) :=
  addHeadersLoop hdrs chunks []

/-! ### 4.E  Analyzer facade (`internal/rspamc`) -/

/-- `rspamc.CheckResult` (JSON verdict).  `symbols` is the
`map[string]*Symbol` as an association list `(name, score)` — the comment in
`toHdrMap` records that the map key equals the symbol's `Name`. -/
structure CheckResult where
  action : String
  score : Int
  isSkipped : Bool
  symbols : List (String × Int)
  deriving DecidableEq, Repr

/-- The zero value of `CheckResult` (`var result CheckResult`). -/
def zeroCheckResult : CheckResult :=
  { action := "", score := 0, isSkipped := false, symbols := [] }

/-- What one analyzer HTTP round produces, as seen by `sendRequest`. -/
inductive HttpAttempt where
  /-- `http.NewRequestWithContext` returned an error -/
  | buildFailed
  /-- `http.DefaultClient.Do` returned an error (e.g. analyzer unreachable) -/
  | doFailed
  /-- a response arrived; `body` is the verdict its JSON body decodes to,
  `none` when the body does not decode -/
  | response (status : Nat) (contentType : String) (body : Option CheckResult)
  deriving DecidableEq, Repr

/-- `rspamc.Client.sendRequest`.  `wantResult` is whether a non-nil `result`
destination was passed (Check does, the learn operations pass nil).  The
returned `Option CheckResult` is what was decoded into the destination:
`none` means the destination was never written. -/
def sendRequest (wantResult : Bool) : HttpAttempt → Except String (Option CheckResult)
  | .buildFailed => .ok none
  | .doFailed => .ok none
  | .response status ctype body =>
    if status ≠ 200 then
      if 200 ≤ status ∧ status ≤ 300 then .ok none
      else .error ("request failed with status: " ++ toString status)
    else if ctype ≠ "application/json" then
      .error ("got response with content-type: " ++ ctype ++ ", expecting: application/json")
    else if wantResult then
      match body with
      | some r => .ok (some r)
      | none => .error "json decode failed"
    else .ok none

/-- `rspamc.Client.Check`: `var result CheckResult` keeps its zero value when
`sendRequest` never decodes into it. -/
def Check (a : HttpAttempt) : Except String CheckResult :=
  match sendRequest true a with
  | .error e => .error e
  | .ok (some r) => .ok r
  | .ok none => .ok zeroCheckResult

/-- `rspamc.Client.Ham` / `rspamc.Client.Spam`: a learn request; the response
body is discarded. -/
def Learn (a : HttpAttempt) : Except String Unit :=
  match sendRequest false a with
  | .error e => .error e
  | .ok _ => .ok ()

/-! ### 4.D  IMAP facade (`internal/imapclt`) -/

/-- `imapclt.Envelope`. `date` is the opaque instant `Envelope.Date`. -/
structure Envelope where
  date : Nat
  subject : String
  fromAddrs : List String
  recipients : List String
  messageID : String
  deriving DecidableEq, Repr

/-- `imapclt.Message`: one yielded message; `message` is the materialized
body bytes. -/
structure Message where
  uid : Nat
  message : List Nat
  envelope : Envelope
  deriving DecidableEq, Repr

/-- The address lists of the wire envelope a FETCH returned
(`imap.Envelope`), already converted by `addressesToStrings`. -/
structure RawEnvelope where
  date : Nat
  subject : String
  messageID : String
  fromAddrs : List String
  toAddrs : List String
  cc : List String
  bcc : List String
  deriving DecidableEq, Repr

/-- A collected FETCH result (`msgData.Collect()` succeeded): its UID, its
envelope if present, and its body section bytes if present. -/
structure FetchData where
  uid : Nat
  envelope : Option RawEnvelope
  bodySection : Option (List Nat)
  deriving DecidableEq, Repr

/-- The error cases of `imapclt.Client.fetchNext`. -/
inductive FetchNextError where
  /-- plain `fmt.Errorf("message uid is 0")` -/
  | uidZero
  /-- a typed `*ErrMalformedMsg` with its reason and UID -/
  | malformedMsg (reason : String) (uid : Nat)
  deriving DecidableEq, Repr

/-- `imapclt.Client.fetchNext` after a successful `Collect`: validate the
fetched data and build the `Message`. -/
def fetchNext (m : FetchData) : Except FetchNextError Message :=
  if m.uid = 0 then .error .uidZero
  else
    match m.envelope with
    | none => .error (.malformedMsg "message envelope is nil" m.uid)
    | some env =>
      match m.bodySection with
      | none => .error (.malformedMsg "message is missing body section" m.uid)
      | some body =>
        if body.length = 0 then .error (.malformedMsg "message data reader is empty" m.uid)
        else
          .ok { uid := m.uid
                message := body
                envelope :=
                  { date := env.date
                    subject := env.subject
                    fromAddrs := env.fromAddrs
                    recipients := env.toAddrs ++ env.cc ++ env.cc
                    messageID := "" } }

/-! ### 4.F  Orchestrator (`internal/iscan`) -/

/-- The `iscan.Client` configuration fields the modelled operations read. -/
structure IscanCfg where
  backupMailbox : String
  spamMailbox : String
  inboxMailbox : String
  spamTreshold : Int
  keepTempFiles : Bool
  deriving DecidableEq, Repr

/-- `iscan.scannedMail`. -/
structure ScannedMail where
  path : String
  uid : Nat
  envelope : Envelope
  checkResult : CheckResult
  deriving DecidableEq, Repr

/-- `iscan.Client.isSpam`: `r.Score >= c.spamTreshold`. -/
def isSpam (cfg : IscanCfg) (r : CheckResult) : Bool :=
  cfg.spamTreshold ≤ r.score

/-- The destination mailbox `replaceWithModifiedMails` picks for a mail. -/
def destMailbox (cfg : IscanCfg) (mail : ScannedMail) : String :=
  if isSpam cfg mail.checkResult then cfg.spamMailbox else cfg.inboxMailbox

/-- `iscan.toHdrMap`: one `(prefix+name, Sprint(score))` entry per symbol,
skipping zero scores when requested.  The Go result is a map; the entry list
here is in source order, map iteration order is modelled at the use site. -/
def toHdrMap (pfx : String) (scores : List (String × Int)) (skipZeroScore : Bool) :
    List (String × String) :=
  scores.filterMap fun nv =>
    if skipZeroScore = true ∧ nv.2 = 0 then none
    else some (pfx ++ nv.1, toString nv.2)

/-- The entry set of the header map `addScanResultHeaders` builds: the
non-zero-score symbol headers plus the score header.  The emitted block is
`AsHeaders` applied to this set in whatever order Go's map iteration
produces. -/
def scanResultHdrEntries (r : CheckResult) : List (String × String) :=
  toHdrMap "X-rspamd-iscan-Symbol-" r.symbols true ++
    [("X-rspamd-iscan-Score", toString r.score)]

/-- One per-mail error of `replaceWithModifiedMails` / `ProcessScanBox`,
mirroring the `fmt.Errorf` values the Go code appends. -/
inductive IscanErr where
  /-- `moving mail (uid) (subject) to backup mailbox X failed: cause` -/
  | moveFailed (uid : Nat) (subject : String) (backupMailbox : String) (cause : String)
  /-- `uploading email uid (subject) (path) to mbox failed: cause` -/
  | uploadFailed (uid : Nat) (subject : String) (path : String) (mbox : String) (cause : String)
  /-- `fetching messages from scanbox failed: cause` -/
  | fetchScanboxFailed (cause : String)
  /-- a `downloadAndScan` failure accumulated by the scan loop -/
  | downloadScanFailed (cause : String)
  deriving DecidableEq, Repr

/-- The IMAP/filesystem calls `replaceWithModifiedMails` issues, in order. -/
inductive Effect where
  /-- `clt.Move(uids, mailbox)` -/
  | move (uids : List Nat) (mailbox : String)
  /-- `clt.Upload(path, mailbox, date)` -/
  | upload (path : String) (mailbox : String) (date : Nat)
  /-- `os.Remove(path)` -/
  | removeFile (path : String)
  deriving DecidableEq, Repr

/-- One mail to replace, paired with the outcome the IMAP server would give
each call: `moveErr` is the error `clt.Move` would return for this mail's
backup move, `uploadErr` the error `clt.Upload` would return. -/
structure MailStep where
  mail : ScannedMail
  moveErr : Option String
  uploadErr : Option String
  deriving DecidableEq, Repr

/-- `iscan.Client.replaceWithModifiedMails`: for each mail move the original
to the backup mailbox, then upload the annotated copy to the spam or inbox
mailbox, then delete the temp file unless `keepTempFiles`; a failed move
skips the mail, a failed upload skips only the delete; all errors are
collected and joined at the end.  Returns the call trace and the error
list (`errors.Join` of an empty list is nil). -/
def replaceWithModifiedMails (cfg : IscanCfg) : List MailStep → List Effect × List IscanErr
  | [] => ([], [])
  | s :: rest =>
    let mail := s.mail
    let moveEff := Effect.move [mail.uid] cfg.backupMailbox
    match s.moveErr with
    | some e =>
      let r := replaceWithModifiedMails cfg rest
      (moveEff :: r.1,
       .moveFailed mail.uid mail.envelope.subject cfg.backupMailbox e :: r.2)
    | none =>
      let mbox := destMailbox cfg mail
      let upEff := Effect.upload mail.path mbox mail.envelope.date
      match s.uploadErr with
      | some e =>
        let r := replaceWithModifiedMails cfg rest
        (moveEff :: upEff :: r.1,
         .uploadFailed mail.uid mail.envelope.subject mail.path mbox e :: r.2)
      | none =>
        let r := replaceWithModifiedMails cfg rest
        if cfg.keepTempFiles then (moveEff :: upEff :: r.1, r.2)
        else (moveEff :: upEff :: Effect.removeFile mail.path :: r.1, r.2)

/-- The calls `replaceWithModifiedMails` makes for a single mail
(specification-side decomposition of the loop). -/
def mailSegment (cfg : IscanCfg) (s : MailStep) : List Effect :=
  let moveEff := Effect.move [s.mail.uid] cfg.backupMailbox
  match s.moveErr with
  | some _ => [moveEff]
  | none =>
    let upEff := Effect.upload s.mail.path (destMailbox cfg s.mail) s.mail.envelope.date
    match s.uploadErr with
    | some _ => [moveEff, upEff]
    | none =>
      if cfg.keepTempFiles then [moveEff, upEff]
      else [moveEff, upEff, Effect.removeFile s.mail.path]

/-- The error `replaceWithModifiedMails` accumulates for a single mail, if
any (specification-side decomposition of the loop). -/
def mailError (cfg : IscanCfg) (s : MailStep) : Option IscanErr :=
  match s.moveErr with
  | some e => some (.moveFailed s.mail.uid s.mail.envelope.subject cfg.backupMailbox e)
  | none =>
    match s.uploadErr with
    | some e =>
      some (.uploadFailed s.mail.uid s.mail.envelope.subject s.mail.path
        (destMailbox cfg s.mail) e)
    | none => none

deriving instance DecidableEq for Except

/-- What the `Messages(ScanMailbox)` iterator yields to `ProcessScanBox`,
paired with the outcome `downloadAndScan` would have for a yielded message. -/
inductive ScanYield where
  /-- a message was yielded; `outcome` is what `downloadAndScan` returns for it -/
  | msg (outcome : Except String ScannedMail)
  /-- the iterator yielded `(nil, err)` — e.g. a typed `MalformedMessage` -/
  | fetchErr (e : String)
  deriving DecidableEq, Repr

/-- The message loop of `iscan.Client.ProcessScanBox`.  Returns the list that
would be passed to `replaceWithModifiedMails` (`none` when the function
returns before reaching that call) and the errors accumulated so far. -/
def scanLoop : List ScanYield → List ScannedMail → Option (List ScannedMail) × List IscanErr
  | [], acc => (some acc, [])
  | .fetchErr e :: _, _ => (none, [.fetchScanboxFailed e])
  | .msg (.error e) :: _, acc => (some acc, [.downloadScanFailed e])
  | .msg (.ok sm) :: rest, acc => scanLoop rest (acc ++ [sm])

/-- `iscan.Client.ProcessScanBox`: run the message loop, then — unless the
loop returned early on an iterator error — invoke `replaceWithModifiedMails`
on the accumulated mails and join both error sets.  `moveO`/`uploadO` are the
outcomes the IMAP server would give the per-mail calls.  Returns the argument
`replaceWithModifiedMails` was invoked with (`none` if it was not invoked),
the trace of its calls, and the joined error list. -/
def ProcessScanBox (cfg : IscanCfg) (moveO uploadO : ScannedMail → Option String)
    (script : List ScanYield) :
    Option (List ScannedMail) × List Effect × List IscanErr :=
  match scanLoop script [] with
  | (none, errs) => (none, [], errs)
  | (some mails, errs) =>
    let r := replaceWithModifiedMails cfg
      (mails.map fun sm => { mail := sm, moveErr := moveO sm, uploadErr := uploadO sm })
    (some mails, r.1, errs ++ r.2)

/-! ### `iscan.Client.Stop` -/

/-- The state `Stop` manipulates: whether `stopOnce` already fired, and how
many times the teardown body (close `stopCh`, wait for `wgRun`, close the
IMAP session) has run. -/
structure StopState where
  stopOnceDone : Bool
  teardowns : Nat
  deriving DecidableEq, Repr

/-- `iscan.Client.Stop`: `err` is declared, `stopOnce.Do` runs the teardown
at most once and only then assigns `err = c.clt.Close()`; the captured `err`
(nil on every later call) is returned.  `closeResult` is what `clt.Close()`
returns when the teardown runs. -/
def Stop (closeResult : Option GoError) (s : StopState) : Option GoError × StopState :=
  if s.stopOnceDone then (none, s)
  else (closeResult, { stopOnceDone := true, teardowns := s.teardowns + 1 })

/-! ### Concrete sample values for witnesses and counterexamples -/

/-- A sample configuration: spam threshold 10, temp files deleted. -/
def sampleCfg : IscanCfg :=
  { backupMailbox := "Backup", spamMailbox := "Spam", inboxMailbox := "Inbox",
    spamTreshold := 10, keepTempFiles := false }

/-- A sample scanned ham mail (score 0 < threshold). -/
def sampleHamMail : ScannedMail :=
  { path := "/tmp/a", uid := 1,
    envelope := { date := 4, subject := "s1", fromAddrs := [], recipients := [], messageID := "" },
    checkResult := { action := "no action", score := 0, isSkipped := false, symbols := [] } }

/-- A sample scanned spam mail (score 20 ≥ threshold). -/
def sampleSpamMail : ScannedMail :=
  { path := "/tmp/b", uid := 2,
    envelope := { date := 5, subject := "s2", fromAddrs := [], recipients := [], messageID := "" },
    checkResult := { action := "reject", score := 20, isSkipped := false, symbols := [] } }

/-- A sample mail list for `replaceWithModifiedMails`: the first mail's
backup move fails, the second mail succeeds end to end. -/
def sampleSteps : List MailStep :=
  [{ mail := sampleHamMail, moveErr := some "boom", uploadErr := none },
   { mail := sampleSpamMail, moveErr := none, uploadErr := none }]

/-- A sample collected FETCH result whose envelope has a To, a Cc, a Bcc
address and a message id. -/
def sampleFetchData : FetchData :=
  { uid := 7,
    envelope := some
      { date := 3, subject := "subj", messageID := "mid-1",
        fromAddrs := ["f@x"], toAddrs := ["t@x"], cc := ["c@x"], bcc := ["b@x"] },
    bodySection := some [65] }

/-- A sample verdict with total score 0 and one non-zero-score symbol. -/
def sampleVerdict : CheckResult :=
  { action := "no action", score := 0, isSkipped := false, symbols := [("A", 1)] }

/-! ## Helper lemmas -/

namespace GoError

theorem isErr_iff_mem_chain (e t : GoError) : isErr e t = true ↔ t ∈ chain e := by
  induction e with
  | leaf i =>
      simp only [isErr, Bool.or_false, decide_eq_true_eq, chain, List.mem_singleton]
      exact eq_comm
  | sentinel s =>
      simp only [isErr, Bool.or_false, decide_eq_true_eq, chain, List.mem_singleton]
      exact eq_comm
  | wrap i c ih =>
      simp only [isErr, Bool.or_eq_true, decide_eq_true_eq, chain, List.mem_cons, ih]
      exact or_congr_left eq_comm
  | opError i b c ih =>
      simp only [isErr, Bool.or_eq_true, decide_eq_true_eq, chain, List.mem_cons, ih]
      exact or_congr_left eq_comm

theorem rootCause_eq_of_mem_chain {e t : GoError} (h : t ∈ chain e) :
    rootCause e = rootCause t := by
  induction e with
  | leaf i =>
      simp [chain] at h
      subst h; rfl
  | sentinel s =>
      simp [chain] at h
      subst h; rfl
  | wrap i c ih =>
      rcases (by simpa [chain] using h : t = .wrap i c ∨ t ∈ chain c) with h | h
      · subst h; rfl
      · simpa [rootCause] using ih h
  | opError i b c ih =>
      rcases (by simpa [chain] using h : t = .opError i b c ∨ t ∈ chain c) with h | h
      · subst h; rfl
      · simpa [rootCause] using ih h

theorem isErr_self (e : GoError) : isErr e e = true := by
  cases e <;> simp [isErr]

theorem isErr_of_unwrap {e c : GoError} (h : e.unwrap = some c) : isErr e c = true := by
  cases e with
  | leaf i => simp [unwrap] at h
  | sentinel s => simp [unwrap] at h
  | wrap i c' =>
      simp only [unwrap, Option.some.injEq] at h
      subst h
      simp [isErr, isErr_self]
  | opError i b c' =>
      simp only [unwrap, Option.some.injEq] at h
      subst h
      simp [isErr, isErr_self]

theorem mem_chain_of_unwrap {e c : GoError} (h : e.unwrap = some c) : c ∈ chain e :=
  (isErr_iff_mem_chain e c).mp (isErr_of_unwrap h)

end GoError

namespace Retry

open GoError

/-- With the identical error `e` (which wraps the cause `c`) failing every
call, once the runner state is `lastError = some c`, `failures = f`,
the cap trips after exactly `max - f` further calls. -/
theorem runnerRun_wrapped_tail (isR : GoError → Bool) (max : Nat) (e c : GoError)
    (he : e.unwrap = some c) (hr : isR e = true) :
    ∀ (m f cl : Nat), f < max → max ≤ f + m →
      runnerRun isR max (List.replicate m (some e)) (some c) f cl =
        .maxRetriesExceeded (cl + (max - f)) e := by
  intro m
  induction m with
  | zero =>
      intro f cl hf hm
      omega
  | succ m ih =>
      intro f cl hf hm
      have hIs : GoError.isErrOpt e (some c) = true := isErr_of_unwrap he
      rw [List.replicate_succ]
      simp only [runnerRun]
      rw [if_neg (by simp [hr]), if_pos hIs]
      by_cases hcap : max ≤ f + 1
      · rw [if_pos hcap]
        have hmaxf : max - f = 1 := by omega
        rw [hmaxf]
      · rw [if_neg hcap, he]
        have h1 : f + 1 < max := by omega
        have h2 : max ≤ (f + 1) + m := by omega
        rw [ih (f + 1) (cl + 1) h1 h2]
        congr 1
        omega

/-- With the pairwise distinct-root-cause chain condition, and a `lastError`
whose root cause differs from the next error's, the same-error cap can never
trip. -/
theorem runnerRun_distinct_roots (isR : GoError → Bool) (max : Nat) :
    ∀ (errs : List GoError) (last : Option GoError) (f cl : Nat),
      errs.Chain' (fun a b => rootCause a ≠ rootCause b) →
      (∀ x ∈ last, ∀ hd ∈ errs.head?, rootCause hd ≠ rootCause x) →
      ∀ (n : Nat) (e : GoError),
        runnerRun isR max (errs.map some) last f cl ≠ .maxRetriesExceeded n e := by
  intro errs
  induction errs with
  | nil =>
      intro last f cl _ _ n e
      simp [runnerRun]
  | cons err rest ih =>
      intro last f cl hchain hlast n e
      simp only [List.map_cons, runnerRun]
      by_cases hr : isR err = true
      · rw [if_neg (by simp [hr])]
        have hIs : GoError.isErrOpt err last = false := by
          cases last with
          | none => rfl
          | some t =>
              by_contra hcon
              have htrue : isErr err t = true := by
                simpa [GoError.isErrOpt] using
                  (Bool.not_eq_false (GoError.isErrOpt err (some t))).mp hcon
              have hmem : t ∈ chain err := (isErr_iff_mem_chain err t).mp htrue
              have hroot : rootCause err = rootCause t := rootCause_eq_of_mem_chain hmem
              exact hlast t rfl err rfl hroot
        rw [if_neg (by simp [hIs])]
        apply ih
        · exact hchain.tail
        · intro x hx hd hhd
          cases hu : GoError.unwrap err with
          | none => rw [hu] at hx; exact absurd hx (by simp)
          | some u =>
              rw [hu] at hx
              have hxu : x = u := by
                simpa [Option.mem_def, eq_comm] using hx
              subst hxu
              have hru : rootCause err = rootCause x :=
                rootCause_eq_of_mem_chain (mem_chain_of_unwrap hu)
              have hneq : rootCause err ≠ rootCause hd :=
                (List.chain'_cons'.mp hchain).1 hd hhd
              intro hcon
              exact hneq (by rw [hru, hcon])
      · rw [if_pos (by simp [hr])]
        intro hcon
        cases hcon

end Retry

namespace Iscan

/-- The loop of `replaceWithModifiedMails` factors into independent per-mail
segments: mails after a failed one are still processed, and the returned
error is the join of the per-mail errors. -/
theorem replace_decomp (cfg : IscanCfg) (steps : List MailStep) :
    replaceWithModifiedMails cfg steps =
      ((steps.map (mailSegment cfg)).flatten, steps.filterMap (mailError cfg)) := by
  induction steps with
  | nil => rfl
  | cons s rest ih =>
      cases hm : s.moveErr with
      | some e =>
          simp [replaceWithModifiedMails, mailSegment, mailError, hm, ih]
      | none =>
          cases hu : s.uploadErr with
          | some e =>
              simp [replaceWithModifiedMails, mailSegment, mailError, hm, hu, ih]
          | none =>
              by_cases hk : cfg.keepTempFiles
              · simp [replaceWithModifiedMails, mailSegment, mailError, hm, hu, hk, ih]
              · simp [replaceWithModifiedMails, mailSegment, mailError, hm, hu, hk, ih]

theorem move_mem_mailSegment (cfg : IscanCfg) (s : MailStep) :
    Effect.move [s.mail.uid] cfg.backupMailbox ∈ mailSegment cfg s := by
  cases hm : s.moveErr with
  | some e => simp [mailSegment, hm]
  | none =>
      cases hu : s.uploadErr with
      | some e => simp [mailSegment, hm, hu]
      | none =>
          by_cases hk : cfg.keepTempFiles <;> simp [mailSegment, hm, hu, hk]

theorem movePair_prefix_mailSegment (cfg : IscanCfg) (s : MailStep) (hm : s.moveErr = none) :
    [Effect.move [s.mail.uid] cfg.backupMailbox,
     Effect.upload s.mail.path (destMailbox cfg s.mail) s.mail.envelope.date]
      <+: mailSegment cfg s := by
  cases hu : s.uploadErr with
  | some e => simp [mailSegment, hm, hu]
  | none =>
      by_cases hk : cfg.keepTempFiles
      · simp [mailSegment, hm, hu, hk]
      · simp only [mailSegment, hm, hu, hk, if_neg, ite_false, Bool.false_eq_true]
        exact ⟨[Effect.removeFile s.mail.path], rfl⟩

theorem upload_mem_mailSegment {cfg : IscanCfg} {s : MailStep} {p m : String} {d : Nat}
    (h : Effect.upload p m d ∈ mailSegment cfg s) :
    p = s.mail.path ∧ s.moveErr = none := by
  cases hm : s.moveErr with
  | some e =>
      simp [mailSegment, hm] at h
  | none =>
      refine ⟨?_, rfl⟩
      cases hu : s.uploadErr with
      | some e =>
          simp [mailSegment, hm, hu] at h
          exact h.1
      | none =>
          by_cases hk : cfg.keepTempFiles
          · simp [mailSegment, hm, hu, hk] at h
            exact h.1
          · simp [mailSegment, hm, hu, hk] at h
            exact h.1

theorem removeFile_mem_mailSegment {cfg : IscanCfg} {s : MailStep} {p : String}
    (h : Effect.removeFile p ∈ mailSegment cfg s) :
    p = s.mail.path ∧ s.moveErr = none := by
  cases hm : s.moveErr with
  | some e =>
      simp [mailSegment, hm] at h
  | none =>
      refine ⟨?_, rfl⟩
      cases hu : s.uploadErr with
      | some e =>
          simp [mailSegment, hm, hu] at h
      | none =>
          by_cases hk : cfg.keepTempFiles
          · simp [mailSegment, hm, hu, hk] at h
          · simp [mailSegment, hm, hu, hk] at h
            exact h

end Iscan

/-! ## Claims -/

/-- C1: For every list of mails processed by `replaceWithModifiedMails`:
every mail's backup move is issued, so processing continues with the
remaining mails after any per-mail failure; for every mail whose move
succeeded, the backup move is immediately followed by — in particular happens
strictly before — the upload of the annotated copy for that same mail; with
pairwise distinct temp-file paths, a mail whose backup move failed is skipped
entirely (no upload, no temp-file delete for it); and the returned error is
the join of the per-mail errors, in order. -/
theorem c1_replace_backup_before_upload (cfg : IscanCfg) (steps : List MailStep) :
    (∀ s ∈ steps,
        Effect.move [s.mail.uid] cfg.backupMailbox ∈ (replaceWithModifiedMails cfg steps).1)
  ∧ (∀ s ∈ steps, s.moveErr = none →
        [Effect.move [s.mail.uid] cfg.backupMailbox,
         Effect.upload s.mail.path (destMailbox cfg s.mail) s.mail.envelope.date]
          <:+: (replaceWithModifiedMails cfg steps).1)
  ∧ ((steps.map fun s => s.mail.path).Nodup →
      ∀ s ∈ steps, s.moveErr ≠ none →
        (∀ m d, Effect.upload s.mail.path m d ∉ (replaceWithModifiedMails cfg steps).1) ∧
        Effect.removeFile s.mail.path ∉ (replaceWithModifiedMails cfg steps).1)
  ∧ (replaceWithModifiedMails cfg steps).2 = steps.filterMap (mailError cfg) := by
  have hd := Iscan.replace_decomp cfg steps
  refine ⟨?_, ?_, ?_, ?_⟩
  · intro s hs
    rw [hd]
    exact List.mem_flatten.mpr
      ⟨mailSegment cfg s, List.mem_map_of_mem _ hs, Iscan.move_mem_mailSegment cfg s⟩
  · intro s hs hm
    rw [hd]
    exact (Iscan.movePair_prefix_mailSegment cfg s hm).isInfix.trans
      (List.infix_of_mem_flatten (List.mem_map_of_mem _ hs))
  · intro hnodup s hs hmv
    constructor
    · intro m d hmem
      rw [hd] at hmem
      obtain ⟨l, hl, hx⟩ := List.mem_flatten.mp hmem
      obtain ⟨s', hs', rfl⟩ := List.mem_map.mp hl
      obtain ⟨hp, hm'⟩ := Iscan.upload_mem_mailSegment hx
      have : s' = s := List.inj_on_of_nodup_map hnodup hs' hs (by rw [← hp])
      rw [this] at hm'
      exact hmv hm'
    · intro hmem
      rw [hd] at hmem
      obtain ⟨l, hl, hx⟩ := List.mem_flatten.mp hmem
      obtain ⟨s', hs', rfl⟩ := List.mem_map.mp hl
      obtain ⟨hp, hm'⟩ := Iscan.removeFile_mem_mailSegment hx
      have : s' = s := List.inj_on_of_nodup_map hnodup hs' hs (by rw [← hp])
      rw [this] at hm'
      exact hmv hm'
  · rw [hd]

/-- Witness for C1 at the sample configuration and mail list: the failed
mail's move is attempted, the successful mail's move-then-upload pair occurs
contiguously, the failed mail is neither uploaded nor deleted, and the error
list is exactly the failed mail's error. -/
theorem c1_witness :
    Effect.move [2] "Backup" ∈ (replaceWithModifiedMails sampleCfg sampleSteps).1
  ∧ [Effect.move [2] "Backup", Effect.upload "/tmp/b" "Spam" 5]
      <:+: (replaceWithModifiedMails sampleCfg sampleSteps).1
  ∧ Effect.upload "/tmp/a" "Inbox" 4 ∉ (replaceWithModifiedMails sampleCfg sampleSteps).1
  ∧ Effect.removeFile "/tmp/a" ∉ (replaceWithModifiedMails sampleCfg sampleSteps).1
  ∧ (replaceWithModifiedMails sampleCfg sampleSteps).2 =
      [IscanErr.moveFailed 1 "s1" "Backup" "boom"] := by
  obtain ⟨h1, h2, h3, h4⟩ := c1_replace_backup_before_upload sampleCfg sampleSteps
  have hs2 : ({ mail := sampleSpamMail, moveErr := none, uploadErr := none } : MailStep)
      ∈ sampleSteps := by decide
  have hs1 : ({ mail := sampleHamMail, moveErr := some "boom", uploadErr := none } : MailStep)
      ∈ sampleSteps := by decide
  have hskip := h3 (by decide) _ hs1 (by decide)
  exact ⟨h1 _ hs2, h2 _ hs2 rfl, hskip.1 "Inbox" 4, hskip.2, h4⟩

/-- C2: evaluation of `ProcessScanBox` at the failing input: the scan mailbox
yields a valid message (scanned successfully), then a MalformedMessage
iterator error, then another valid message.  The code returns the wrapped
fetch error immediately: `replaceWithModifiedMails` is never invoked (first
component `none`), no move or upload happens, and the mail scanned before the
malformed one is dropped — contradicting the claim (and the repository's own
`TestLearn_MalformedMessage`) that the valid messages are still moved. -/
theorem c2_malformed_aborts_pass :
    ProcessScanBox sampleCfg (fun _ => none) (fun _ => none)
      [.msg (.ok sampleHamMail),
       .fetchErr "mail UID: 2: message envelope is nil",
       .msg (.ok sampleSpamMail)] =
      (none, [], [.fetchScanboxFailed "mail UID: 2: message envelope is nil"]) := by
  rfl

/-- C3 counterexample: with `MaxRetriesSameError = 2` and a thunk failing
every call with the identical leaf error (no wrapped cause), the runner has
made 3 > 2 invocations and still continues — `errors.Unwrap` of a leaf is
nil, so `lastError` stays nil and the same-error cap never trips.  And with
`MaxRetriesSameError = 1` even a wrapping error does not stop after 1
invocation, because the first failure is never compared equal to the nil
`lastError`. -/
theorem c3_counterexample :
    RunnerRun (fun _ => true) 2 (List.replicate 3 (some (.leaf 0))) =
      .running 3 none 1
  ∧ RunnerRun (fun _ => true) 1 (List.replicate 1 (some (.wrap 0 (.leaf 1)))) =
      .running 1 (some (.leaf 1)) 1 := by
  decide

/-- C3 amended: for every `MaxRetriesSameError ≥ 2` and every retryable error
value that wraps a cause, a thunk failing every call with that identical
error is invoked exactly `MaxRetriesSameError` times before the runner
returns the max-retries failure; and for every thunk whose consecutive
failures have pairwise distinct root causes, the runner never returns via
the same-error cap. -/
theorem c3_retry_cap (isR : GoError → Bool) (max : Nat) :
    (∀ (n : Nat) (e c : GoError),
        2 ≤ max → max ≤ n → e.unwrap = some c → isR e = true →
        RunnerRun isR max (List.replicate n (some e)) = .maxRetriesExceeded max e)
  ∧ (∀ errs : List GoError,
        errs.Chain' (fun a b => a.rootCause ≠ b.rootCause) →
        ∀ (n : Nat) (e : GoError),
          RunnerRun isR max (errs.map some) ≠ .maxRetriesExceeded n e) := by
  constructor
  · intro n e c hmax hn he hr
    unfold RunnerRun
    obtain ⟨n', rfl⟩ : ∃ n', n = n' + 1 := ⟨n - 1, by omega⟩
    rw [List.replicate_succ]
    simp only [runnerRun]
    rw [if_neg (by simp [hr]), if_neg (by simp [GoError.isErrOpt]), he,
      Retry.runnerRun_wrapped_tail isR max e c he hr n' 1 1 (by omega) (by omega)]
    congr 1
    omega
  · intro errs hchain n e
    exact Retry.runnerRun_distinct_roots isR max errs none 0 0 hchain (by simp) n e

/-- Witness for C3 at concrete inputs: a twice-failing identical wrapped
error with cap 2 returns the max-retries failure after exactly 2 calls, and
two failures with distinct leaf root causes never trip the cap. -/
theorem c3_witness :
    RunnerRun (fun _ => true) 2 (List.replicate 2 (some (.wrap 0 (.leaf 1)))) =
      .maxRetriesExceeded 2 (.wrap 0 (.leaf 1))
  ∧ RunnerRun (fun _ => true) 2 [some (.leaf 0), some (.leaf 1)] ≠
      .maxRetriesExceeded 1 (.leaf 1) := by
  refine ⟨(c3_retry_cap (fun _ => true) 2).1 2 _ _ (by decide) (by decide) rfl rfl, ?_⟩
  have h := (c3_retry_cap (fun _ => true) 2).2 [.leaf 0, .leaf 1]
    (List.chain'_cons.mpr ⟨by decide, List.chain'_singleton _⟩) 1 (.leaf 1)
  simpa using h

/-- C4: evaluation of `fetchNext` at a message with a To, a Cc and a Bcc
address and a message id: the produced Envelope's Recipients are
`To ++ Cc ++ Cc` — the Bcc list is omitted and the Cc list is concatenated
twice (the source builds `slices.Concat(To, Cc, Cc)` though the struct
comment says "Recipients are the To, Cc and Bcc addresses") — and the
MessageID field is never populated. -/
theorem c4_recipients_bug :
    (fetchNext sampleFetchData).toOption.map (fun m => m.envelope.recipients) =
      some ["t@x", "c@x", "c@x"]
  ∧ (fetchNext sampleFetchData).toOption.map (fun m => m.envelope.messageID) =
      some "" := by
  decide

/-- C5: evaluation of the header block at the failing input: a verdict with
score 0 and one non-zero symbol `A`.  The list starting with the score entry
is a permutation of the header map's entries — hence a possible Go map
iteration order — yet `AsHeaders` emits the score header first (neither
alphabetical order nor score-last), and the two iteration orders yield
different byte sequences, so the emitted block is not a deterministic
function of the verdict (the repository's own `TestAddHeaders` expects a
fixed order). -/
theorem c5_header_order_bug :
    [("X-rspamd-iscan-Score", "0"), ("X-rspamd-iscan-Symbol-A", "1")].Perm
        (scanResultHdrEntries sampleVerdict)
  ∧ AsHeaders [("X-rspamd-iscan-Score", "0"), ("X-rspamd-iscan-Symbol-A", "1")] =
      .ok "X-rspamd-iscan-Score: 0\r\nX-rspamd-iscan-Symbol-A: 1\r\n"
  ∧ AsHeaders [("X-rspamd-iscan-Score", "0"), ("X-rspamd-iscan-Symbol-A", "1")] ≠
      AsHeaders [("X-rspamd-iscan-Symbol-A", "1"), ("X-rspamd-iscan-Score", "0")] := by
  refine ⟨by decide, by decide, by decide⟩

/-- C6 counterexample: a `net.OpError` flagged `Temporary()` whose cause
chain matches none of the nine sentinel errors.  The claim says the
classifier returns true for any transport error flagged as temporary, but
`IsRetryableError` never consults the flag and returns false. -/
theorem c6_counterexample :
    GoError.temporaryFlagged (.opError 0 true (.leaf 5)) = true
  ∧ IsRetryableError (.opError 0 true (.leaf 5)) = false := by
  decide

/-- C6 amended: the classifier returns true exactly when the error's cause
chain contains one of the nine listed conditions (connection refused / reset
/ aborted, broken pipe, timed out, network or host unreachable, unexpected
EOF, use of closed network connection); the `Temporary()` flag is not
consulted, and every other error is classified fatal. -/
theorem c6_classifier_chain (e : GoError) :
    IsRetryableError e = true ↔ ∃ t ∈ GoError.chain e, t ∈ retryableSentinels := by
  have hany : IsRetryableError e =
      retryableSentinels.any (fun t => GoError.isErr e t) := by
    simp [IsRetryableError, retryableSentinels, Bool.or_assoc]
  rw [hany, List.any_eq_true]
  simp only [GoError.isErr_iff_mem_chain]
  exact ⟨fun ⟨t, h1, h2⟩ => ⟨t, h2, h1⟩, fun ⟨t, h1, h2⟩ => ⟨t, h2, h1⟩⟩

/-- Witness for C6 at a concrete error: a wrapped broken-pipe error is
classified retryable. -/
theorem c6_witness : IsRetryableError (.wrap 3 (.sentinel .epipe)) = true :=
  (c6_classifier_chain (.wrap 3 (.sentinel .epipe))).mpr
    ⟨.sentinel .epipe, by decide, by decide⟩

/-- C7: evaluation of `addHeaders` at the failing input: the message
`a CR LF CR LF b` contains the sentinel (index 1 of the flattened bytes),
but delivered as the two read chunks `a CR LF CR` and `LF b` — legal for an
`io.Reader` — the per-chunk `bytes.Index` scan misses the straddling
sentinel and the routine fails with "header end not found"; the same message
in a single chunk succeeds. -/
theorem c7_sentinel_straddle_bug :
    indexCrlfCrlf ([[97, 13, 10, 13], [10, 98]].flatten) = some 1
  ∧ addHeaders [[97, 13, 10, 13], [10, 98]] [72, 13, 10] =
      .error "header end not found"
  ∧ addHeaders [[97, 13, 10, 13, 10, 98]] [72, 13, 10] =
      .ok [97, 13, 10, 72, 13, 10, 13, 10, 98] := by
  decide

/-- C8 counterexample: a learn request whose response has HTTP status 300 —
outside the 2xx range — is accepted as success, because the code tests
`200 <= status <= 300`. -/
theorem c8_counterexample :
    Learn (.response 300 "text/plain" none) = .ok ()
  ∧ ¬ (200 ≤ 300 ∧ 300 ≤ 299) := by
  decide

/-- C8 amended: for every received response, any status in 200..300 — one
more than the 2xx range — other than 200 is accepted as success by the learn
operations without looking at the body; any status outside 200..300 yields a
failure carrying the HTTP status for Check and learn alike; and learn success
implies the status lies in 200..300. -/
theorem c8_status_range (status : Nat) (ctype : String) (body : Option CheckResult) :
    (status ≠ 200 → 200 ≤ status → status ≤ 300 →
        Learn (.response status ctype body) = .ok ())
  ∧ (status < 200 ∨ 300 < status →
        Learn (.response status ctype body) =
            .error ("request failed with status: " ++ toString status)
      ∧ Check (.response status ctype body) =
            .error ("request failed with status: " ++ toString status))
  ∧ (Learn (.response status ctype body) = .ok () → 200 ≤ status ∧ status ≤ 300) := by
  refine ⟨?_, ?_, ?_⟩
  · intro h200 hlo hhi
    simp [Learn, sendRequest, h200, hlo, hhi]
  · intro hout
    have h200 : status ≠ 200 := by omega
    have hnr : ¬ (200 ≤ status ∧ status ≤ 300) := by omega
    constructor
    · simp [Learn, sendRequest, h200, hnr]
    · simp [Check, sendRequest, h200, hnr]
  · intro h
    rcases Nat.lt_or_ge status 200 with hlt | hge
    · have h200 : status ≠ 200 := by omega
      have hnr : ¬ (200 ≤ status ∧ status ≤ 300) := by omega
      simp [Learn, sendRequest, h200, hnr] at h
    · rcases Nat.lt_or_ge 300 status with hgt | hle
      · have h200 : status ≠ 200 := by omega
        have hnr : ¬ (200 ≤ status ∧ status ≤ 300) := by omega
        simp [Learn, sendRequest, h200, hnr] at h
      · exact ⟨hge, hle⟩

/-- Witness for C8 at concrete statuses: 208 "already learned" is accepted
as learn success, 404 fails with the status for Check. -/
theorem c8_witness :
    Learn (.response 208 "text/plain" none) = .ok ()
  ∧ Check (.response 404 "text/plain" none) =
      .error ("request failed with status: " ++ toString 404) :=
  ⟨(c8_status_range 208 "text/plain" none).1 (by decide) (by decide) (by decide),
   ((c8_status_range 404 "text/plain" none).2.1 (by omega)).2⟩

/-- C9 counterexample: when closing the IMAP session fails, the first `Stop`
call returns that error but the second call returns nil — not the same
result, because `err` is only assigned inside the `stopOnce.Do` body. -/
theorem c9_counterexample :
    (Stop (some (.leaf 0)) { stopOnceDone := false, teardowns := 0 }).1 = some (.leaf 0)
  ∧ (Stop (some (.leaf 0))
      (Stop (some (.leaf 0)) { stopOnceDone := false, teardowns := 0 }).2).1 = none := by
  decide

/-- C9 amended: across two `Stop` calls the teardown (close the stop channel,
wait for the monitor loop, close the IMAP session) runs exactly once; the
second call always returns nil, so the two calls return the same result
exactly when the first call's session close succeeded. -/
theorem c9_stop_teardown_once (closeResult : Option GoError) :
    (Stop closeResult (Stop closeResult ⟨false, 0⟩).2).2.teardowns = 1
  ∧ (Stop closeResult (Stop closeResult ⟨false, 0⟩).2).1 = none
  ∧ ((Stop closeResult (Stop closeResult ⟨false, 0⟩).2).1 =
        (Stop closeResult ⟨false, 0⟩).1 ↔ closeResult = none) := by
  cases closeResult <;> simp [Stop]

/-- Witness for C9 at a failing close: teardown once, second result nil and
different from the first. -/
theorem c9_witness :
    (Stop (some (.leaf 7)) (Stop (some (.leaf 7)) ⟨false, 0⟩).2).2.teardowns = 1
  ∧ ¬ ((Stop (some (.leaf 7)) (Stop (some (.leaf 7)) ⟨false, 0⟩).2).1 =
        (Stop (some (.leaf 7)) ⟨false, 0⟩).1) := by
  have h := c9_stop_teardown_once (some (.leaf 7))
  exact ⟨h.1, fun hc => by simpa using h.2.2.mp hc⟩

/-- C10: when building the HTTP request or executing it fails, `sendRequest`
returns nil without having contacted the analyzer; `Check` therefore returns
the zero-valued verdict (score 0, no symbols) with no error — which the spam
classifier treats as ham — and the learn operations report success. -/
theorem c10_transport_error_swallowed :
    sendRequest true .buildFailed = .ok none
  ∧ sendRequest true .doFailed = .ok none
  ∧ Check .buildFailed = .ok zeroCheckResult
  ∧ Check .doFailed = .ok zeroCheckResult
  ∧ zeroCheckResult.score = 0
  ∧ zeroCheckResult.symbols = []
  ∧ isSpam sampleCfg zeroCheckResult = false
  ∧ Learn .buildFailed = .ok ()
  ∧ Learn .doFailed = .ok () := by
  decide

end RspamdIscan
